import Mathlib

/-!
# openporter: tunnel registry (alias-manager) and reconciliation engine (tcp-mux)

A shallow embedding of `src/alias-manager/main.go` and `src/tcp-mux/main.go`.

The SQLite database is an explicit `Store` value holding the three tables the
programs touch (`tunnels`, `reserved`, `user_stats`); every SQL statement is a
pure function on it.  Statements are assumed to execute without a driver error,
except the query of tcp-mux, whose failure is an input.  A `rows.Scan` error is
modelled where the data can cause it: a row whose `type` is NULL cannot be scanned
into a Go string.

Time is a natural number of nanoseconds since the epoch, the resolution of Go's
`time.Time`.  The Go clock (`time.Now()`) and the store clock (`DATETIME('now')`)
are read at different places of the source and are separate inputs here.

Randomness (`rand.Intn`) is an explicit list of samples; a loop that consumes all
the samples it was given without leaving is reported as `none` / `spinning`.
-/

namespace Openporter

/-! ## Data model -/

/-- A row of the `tunnels` table.  The column `type` is never written by the
programs, so its value is the column default; `none` is NULL. -/
structure Tunnel where
  token : String
  alias_ : String
  port : Nat
  public_port : Nat
  active : Bool
  created_at : Nat
  last_active : Nat
  type : Option String
  deriving DecidableEq, Repr

/-- A row of the `reserved` table (`alias_or_port`, `type`). -/
structure Reservation where
  alias_or_port : String
  type : String
  deriving DecidableEq, Repr

/-- A row of the `user_stats` table.  `last_creation_attempt` is `none` when the
stored text is not accepted by either layout tried by `canCreateTunnel` (or is
NULL), and otherwise the instant it denotes. -/
structure UserStats where
  token : String
  last_creation_attempt : Option Nat
  creation_count : Nat
  max_tunnels : Nat
  deriving DecidableEq, Repr

/-- The database: the three tables read and written by the two programs. -/
structure Store where
  tunnels : List Tunnel
  reserved : List Reservation
  user_stats : List UserStats
  deriving DecidableEq, Repr

/-- One second, in nanoseconds (`time.Second`). -/
def second : Nat := 1000000000

/-- One minute (`time.Minute`). -/
def minute : Nat := 60 * second

/-- The constant `maxCreationAttempts`. -/
def maxCreationAttempts : Nat := 5

/-- The constant `creationWindow`. -/
def creationWindow : Nat := 1 * minute

/-! ## alias-manager: helpers -/

/-- The function `strings.Split(arg, ":")` on the characters of the argument. -/
def splitColon : List Char → List (List Char)
  | [] => [[]]
  | c :: cs =>
    if c = ':' then [] :: splitColon cs
    else
      match splitColon cs with
      | [] => [[c]]
      | p :: ps => (c :: p) :: ps

/-- The call `strings.Split(arg, ":")`. -/
def splitArg (arg : String) : List String :=
  (splitColon arg.data).map String.mk

/-- The value of `parts[0]`. -/
def argToken (arg : String) : String :=
  (splitArg arg).headD ""

/-- The variable `requestedAlias` of the `create` case: `parts[1]` when there are
exactly two parts, otherwise the empty string. -/
def argAlias (arg : String) : String :=
  match splitArg arg with
  | [_, a] => a
  | _ => ""

/-- Value of a run of decimal digits, `none` if a character is not `0`..`9`. -/
def digitsValue : List Char → Nat → Option Nat
  | [], acc => some acc
  | c :: cs, acc =>
    if c.isDigit then digitsValue cs (acc * 10 + (c.toNat - 48)) else none

/-- The function `strconv.Atoi` on a 64-bit platform: an optional sign, at least
one decimal digit, and a value that fits `int`. -/
def atoi (s : String) : Option Int :=
  let body (neg : Bool) (ds : List Char) : Option Int :=
    match ds with
    | [] => none
    | _ =>
      match digitsValue ds 0 with
      | none => none
      | some n =>
        if neg then (if n ≤ 2 ^ 63 then some (-(n : Int)) else none)
        else (if n < 2 ^ 63 then some (n : Int) else none)
  match s.data with
  | [] => none
  | '-' :: ds => body true ds
  | '+' :: ds => body false ds
  | ds => body false ds

/-- The function `isReserved(typ, val, db)`: `SELECT COUNT(*) FROM reserved WHERE
alias_or_port = ? AND type = ?` is positive. -/
def isReserved (typ : String) (val : String) (db : Store) : Bool :=
  decide (0 < db.reserved.countP (fun r => r.alias_or_port == val && r.type == typ))

/-- The slice `adjectives` of `generateAlias`. -/
def adjectives : List String := ["blue", "fast", "quiet", "red", "happy", "green"]

/-- The slice `animals` of `generateAlias`. -/
def animals : List String := ["fox", "wolf", "bison", "hawk", "lion", "crab"]

/-- The function `generateAlias`, given the two values returned by `rand.Intn(6)`. -/
def generateAlias (i j : Fin 6) : String :=
  adjectives.getD i.val "" ++ "-" ++ animals.getD j.val ""

/-- The alias loop of the `create` case (lines 64-67): generate, and generate again
while the alias is reserved.  `none` when every sample given was reserved. -/
def pickAlias (db : Store) : List (Fin 6 × Fin 6) → Option String
  | [] => none
  | (i, j) :: rest =>
    if isReserved "alias" (generateAlias i j) db then pickAlias db rest
    else some (generateAlias i j)

/-- The function `findFreePort`: each sample is one value of `rand.Intn(60000-30000)`.
`none` when every sample given was taken or reserved. -/
def findFreePort (db : Store) : List (Fin 30000) → Option Nat
  | [] => none
  | r :: rest =>
    let port := r.val + 30000
    let exists_ := db.tunnels.countP (fun t => t.public_port == port)
    if exists_ = 0 ∧ isReserved "port" (toString port) db = false then some port
    else findFreePort db rest

/-! ## alias-manager: the admission check -/

/-- Inputs of one `create` invocation that do not come from the database: the
clock readings, the column defaults of the schema (the schema is not part of the
sources, so the values a fresh row receives are inputs), and the random samples. -/
structure CreateEnv where
  /-- The reading `time.Now()` in `canCreateTunnel`. -/
  now : Nat
  /-- The value `DATETIME('now')` in the `UPDATE user_stats` statement. -/
  statsStamp : Nat
  /-- The value `DATETIME('now')` in the `INSERT INTO tunnels` statement. -/
  rowStamp : Nat
  /-- Column default of `user_stats.last_creation_attempt`. -/
  defaultLast : Option Nat
  /-- Column default of `user_stats.creation_count`. -/
  defaultCount : Nat
  /-- Column default of `user_stats.max_tunnels`. -/
  defaultMax : Nat
  /-- Column default of `tunnels.type` (`none` is NULL). -/
  defaultType : Option String
  /-- Successive pairs of `rand.Intn(6)` values drawn by `generateAlias`. -/
  aliasSamples : List (Fin 6 × Fin 6)
  /-- Successive `rand.Intn(30000)` values drawn by `findFreePort`. -/
  portSamples : List (Fin 30000)

/-- The statement `INSERT OR IGNORE INTO user_stats (token) VALUES (?)`: a row with
the column defaults is added unless the token already has one (`token` is the key
of the table: the insert is an idempotent insert-if-absent). -/
def ensureUserStats (db : Store) (token : String) (env : CreateEnv) : Store :=
  if db.user_stats.any (fun u => u.token == token) then db
  else { db with user_stats := db.user_stats ++
          [{ token := token, last_creation_attempt := env.defaultLast,
             creation_count := env.defaultCount, max_tunnels := env.defaultMax }] }

/-- The rate check of `canCreateTunnel` (lines 182-192): `none` is the rejection,
`some c` the new value of `creationCount`.  `now.Sub(lastAttempt) < creationWindow`
is a signed comparison, written here as `now < lastAttempt + creationWindow`. -/
def rateCheck (now lastAttempt creationCount : Nat) : Option Nat :=
  if now < lastAttempt + creationWindow then
    if creationCount ≥ maxCreationAttempts then none
    else some (creationCount + 1)
  else some 1

/-- The statement `UPDATE user_stats SET last_creation_attempt = DATETIME('now'),
creation_count = ? WHERE token = ?`. -/
def updateUserStats (db : Store) (token : String) (stamp creationCount : Nat) : Store :=
  { db with user_stats := db.user_stats.map (fun u =>
      if u.token = token then
        { u with last_creation_attempt := some stamp, creation_count := creationCount }
      else u) }

/-- The function `canCreateTunnel`: its verdict and the database it leaves. -/
def canCreateTunnel (db : Store) (token : String) (env : CreateEnv) : Bool × Store :=
  let db1 := ensureUserStats db token env
  match db1.user_stats.find? (fun u => u.token == token) with
  | none => (false, db1)
  | some u =>
    match u.last_creation_attempt with
    | none => (false, db1)
    | some lastAttempt =>
      match rateCheck env.now lastAttempt u.creation_count with
      | none => (false, db1)
      | some creationCount =>
        let activeTunnels := db1.tunnels.countP (fun t => t.token == token && t.active)
        if activeTunnels ≥ u.max_tunnels then (false, db1)
        else (true, updateUserStats db1 token env.statsStamp creationCount)

/-- Whether the call reaches the active-tunnel check, i.e. the statistics row is
read and parsed and the rate check of lines 182-192 does not reject. -/
def passesRateCheck (db : Store) (token : String) (env : CreateEnv) : Bool :=
  match (ensureUserStats db token env).user_stats.find? (fun u => u.token == token) with
  | none => false
  | some u =>
    match u.last_creation_attempt with
    | none => false
    | some lastAttempt => (rateCheck env.now lastAttempt u.creation_count).isSome

/-! ## alias-manager: the commands -/

/-- Modelled from the spec: the schema of the `tunnels` table is not part of the
sources; the spec states that the store enforces two uniqueness constraints, on
`alias` and on `public_port`.  The `INSERT` fails (`none`) when one is violated. -/
def insertTunnel (db : Store) (row : Tunnel) : Option Store :=
  if db.tunnels.any (fun t => t.alias_ == row.alias_ || t.public_port == row.public_port)
  then none
  else some { db with tunnels := db.tunnels ++ [row] }

/-- What one `create` invocation does: print a line and exit normally, exit with
status 1, or still be inside a sampling loop after the samples given. -/
inductive CreateResult where
  | printed (alias_ : String) (port : Nat) (publicPort : Nat)
  | exit1
  | spinning
  deriving DecidableEq, Repr

/-- The row inserted by the `INSERT INTO tunnels` statement of the `create` case:
`active = 0`, both timestamps `DATETIME('now')`, `public_port = port`. -/
def newRow (token alias_ : String) (port : Nat) (env : CreateEnv) : Tunnel :=
  { token := token, alias_ := alias_, port := port, public_port := port,
    active := false, created_at := env.rowStamp, last_active := env.rowStamp,
    type := env.defaultType }

/-- Lines 73-85 of the `create` case: allocate the port and insert the row. -/
def createRow (db : Store) (token alias_ : String) (env : CreateEnv) :
    CreateResult × Store :=
  match findFreePort db env.portSamples with
  | none => (.spinning, db)
  | some port =>
    let publicPort := port
    match insertTunnel db (newRow token alias_ port env) with
    | none => (.exit1, db)
    | some db2 => (.printed alias_ port publicPort, db2)

/-- The `create` case of `main`. -/
def create (db : Store) (arg : String) (env : CreateEnv) : CreateResult × Store :=
  let token := argToken arg
  let requestedAlias := argAlias arg
  match canCreateTunnel db token env with
  | (false, db1) => (.exit1, db1)
  | (true, db1) =>
    if requestedAlias = "" then
      match pickAlias db1 env.aliasSamples with
      | none => (.spinning, db1)
      | some a => createRow db1 token a env
    else if isReserved "alias" requestedAlias db1 then (.exit1, db1)
    else createRow db1 token requestedAlias env

/-- Exit status of a command without output. -/
inductive ExitStatus where
  | ok
  | failure
  deriving DecidableEq, Repr

/-- The predicate `token = ? AND public_port = ?` of the `activate` statement. -/
def activateHit (token : String) (publicPort : Int) (t : Tunnel) : Bool :=
  t.token == token && ((t.public_port : Int) == publicPort)

/-- Lines 100-110 of the `activate` case: the `UPDATE tunnels SET active = 1,
last_active = DATETIME('now') WHERE token = ? AND public_port = ?` statement and
the test of `rowsAffected`. -/
def activateRow (db : Store) (token : String) (publicPort : Int) (dbNow : Nat) :
    ExitStatus × Store :=
  let rowsAffected := db.tunnels.countP (activateHit token publicPort)
  let db1 := { db with tunnels := db.tunnels.map (fun t =>
      if activateHit token publicPort t then
        { t with active := true, last_active := dbNow }
      else t) }
  if rowsAffected = 0 then (.failure, db1) else (.ok, db1)

/-- The `activate` case of `main`. -/
def activate (db : Store) (arg : String) (dbNow : Nat) : ExitStatus × Store :=
  match splitArg arg with
  | [token, p] =>
    match atoi p with
    | none => (.failure, db)
    | some publicPort => activateRow db token publicPort dbNow
  | _ => (.failure, db)

/-- The `get` case of `main`: the first row of `SELECT alias, port, public_port FROM
tunnels WHERE token = ? AND active = 1`, if any. -/
def get (db : Store) (token : String) : Option (String × Nat × Nat) :=
  (db.tunnels.find? (fun t => t.token == token && t.active)).map
    (fun t => (t.alias_, t.port, t.public_port))

/-- The `get-by-alias` case of `main`. -/
def getByAlias (db : Store) (alias_ : String) : Option (Nat × Nat) :=
  (db.tunnels.find? (fun t => t.alias_ == alias_ && t.active)).map
    (fun t => (t.port, t.public_port))

/-! ## tcp-mux: the stale tunnel collector -/

/-- The first statement of `cleanupStaleTunnels`: `DELETE FROM tunnels WHERE
active = 0 AND created_at < DATETIME('now', '-10 minutes')`, with `now` the value
of `DATETIME('now')`.  The comparison `created_at < now - 10 minutes` is written
additively. -/
def deleteUnactivated (db : Store) (now : Nat) : Store :=
  { db with tunnels := db.tunnels.filter (fun t =>
      !(t.active == false && decide (t.created_at + 10 * minute < now))) }

/-- The second statement of `cleanupStaleTunnels`: `DELETE FROM tunnels WHERE
active = 1 AND last_active < DATETIME('now', '-30 minutes')`. -/
def deleteIdle (db : Store) (now : Nat) : Store :=
  { db with tunnels := db.tunnels.filter (fun t =>
      !(t.active == true && decide (t.last_active + 30 * minute < now))) }

/-- One iteration of the loop of `cleanupStaleTunnels`; `now1` and `now2` are the
values of `DATETIME('now')` in the first and in the second statement. -/
def cleanupStaleTunnels (db : Store) (now1 now2 : Nat) : Store :=
  deleteIdle (deleteUnactivated db now1) now2

/-! ## tcp-mux: the reconciliation loop -/

/-- An operation on the shared database. -/
inductive Op where
  | create (arg : String) (env : CreateEnv)
  | activate (arg : String) (dbNow : Nat)
  | cleanup (now1 now2 : Nat)

/-- The database after one operation. -/
def step (db : Store) : Op → Store
  | .create arg env => (create db arg env).2
  | .activate arg dbNow => (activate db arg dbNow).2
  | .cleanup now1 now2 => cleanupStaleTunnels db now1 now2

/-- The database after a sequence of operations. -/
def run (db : Store) : List Op → Store
  | [] => db
  | op :: ops => run (step db op) ops

/-- Whether the operation is a `create` for `token` that `canCreateTunnel` lets through. -/
def accepted (db : Store) (token : String) : Op → Bool
  | .create arg env => argToken arg == token && (canCreateTunnel db token env).1
  | _ => false

/-- Whether the operation is a `create` for `token` that passes the rate check. -/
def ratePassed (db : Store) (token : String) : Op → Bool
  | .create arg env => argToken arg == token && passesRateCheck db token env
  | _ => false

/-- Number of operations of the run satisfying a test on (database before, operation). -/
def countOps (test : Store → Op → Bool) : Store → List Op → Nat
  | _, [] => 0
  | db, op :: ops => (if test db op then 1 else 0) + countOps test (step db op) ops

/-- Number of active tunnels of a token. -/
def activeCount (db : Store) (token : String) : Nat :=
  db.tunnels.countP (fun t => t.token == token && t.active)

/-- The row `SELECT ... FROM user_stats WHERE token = ?` returns. -/
def statsOf (db : Store) (token : String) : Option UserStats :=
  db.user_stats.find? (fun u => u.token == token)

/-- The window condition on one operation: a `create` for `token` reads the Go
clock less than `creationWindow` after the instant `start`, and the store timestamp
it writes to `last_creation_attempt` is not before `start`. -/
def inWindow (token : String) (start : Nat) : Op → Bool
  | .create arg env =>
    !(argToken arg == token) ||
      (decide (start ≤ env.statsStamp) && decide (env.now < start + creationWindow))
  | _ => true

/-- The window condition on a run: it holds of every operation. -/
def withinWindow (token : String) (start : Nat) (ops : List Op) : Prop :=
  ∀ op ∈ ops, inWindow token start op = true

/-- The window condition is decidable. -/
instance (token : String) (start : Nat) (ops : List Op) :
    Decidable (withinWindow token start ops) := by
  unfold withinWindow
  infer_instance

/-! ## Example data -/

/-- The value SQLite's `DATETIME('now')` has at the instant `now`: the text has the
form `YYYY-MM-DD HH:MM:SS`, i.e. whole seconds. -/
def datetimeNow (now : Nat) : Nat :=
  now / second * second

/-- An invocation at the instant `now`: the Go clock reads `now`, the store stamps
are `datetimeNow now`, the schema defaults are those of a fresh row allowing one
tunnel, and the port samples are as given. -/
def envAt (now : Nat) (ports : List (Fin 30000)) : CreateEnv :=
  { now := now, statsStamp := datetimeNow now, rowStamp := datetimeNow now,
    defaultLast := some 0, defaultCount := 0, defaultMax := 1, defaultType := some "tcp",
    aliasSamples := [(0, 0), (1, 1)], portSamples := ports }

/-- A tunnel row of token `tok`. -/
def rowOf (alias_ : String) (port : Nat) (active : Bool) : Tunnel :=
  { token := "tok", alias_ := alias_, port := port, public_port := port, active := active,
    created_at := 0, last_active := 0, type := some "tcp" }

/-- A database with one active tunnel of `tok`, whose cap is one tunnel and whose
counter stands at 2; `admin` and port 30001 are reserved. -/
def storeFull : Store :=
  { tunnels := [rowOf "blue-fox" 30005 true],
    reserved := [{ alias_or_port := "admin", type := "alias" },
                 { alias_or_port := "30001", type := "port" }],
    user_stats := [{ token := "tok", last_creation_attempt := some 0,
                     creation_count := 2, max_tunnels := 1 }] }

/-- A database without tunnels in which `tok` may have `cap` active tunnels. -/
def storeEmpty (cap : Nat) : Store :=
  { tunnels := [],
    reserved := [{ alias_or_port := "admin", type := "alias" },
                 { alias_or_port := "30001", type := "port" }],
    user_stats := [{ token := "tok", last_creation_attempt := some 0,
                     creation_count := 0, max_tunnels := cap }] }

/-- Whether every `create` of the run reads the Go clock inside the 60-second window
that starts at `start`, and the store stamps it writes are `datetimeNow` of that
reading. -/
def callTimesWithin (start : Nat) (ops : List Op) : Bool :=
  ops.all (fun op =>
    match op with
    | .create _ env =>
      decide (start ≤ env.now) && decide (env.now < start + creationWindow) &&
        (env.statsStamp == datetimeNow env.now)
    | _ => false)

/-- Six `create tok` invocations, one per second from 1 s to 6 s. -/
def steadyCalls : List Op :=
  (List.range 6).map (fun k => Op.create "tok" (envAt ((k + 1) * second) [7]))

/-- Six `create` invocations of `tok` at 0.90 s, 0.91 s, 0.92 s, 0.93 s, 0.94 s and
60.5 s, each with its own alias and port sample. -/
def burstCalls : List Op :=
  [ Op.create "tok:a1" (envAt 900000000 [10]),
    Op.create "tok:a2" (envAt 910000000 [11]),
    Op.create "tok:a3" (envAt 920000000 [12]),
    Op.create "tok:a4" (envAt 930000000 [13]),
    Op.create "tok:a5" (envAt 940000000 [14]),
    Op.create "tok:a6" (envAt 60500000000 [15]) ]

/-- Two `create` invocations of `tok` followed by the activation of both tunnels. -/
def twoTunnels : List Op :=
  [ Op.create "tok:a1" (envAt (1 * second) [10]),
    Op.create "tok:a2" (envAt (2 * second) [11]),
    Op.activate "tok:30010" (3 * second),
    Op.activate "tok:30011" (4 * second) ]

/-- A database with an inactive and an active tunnel of `tok`, both stamped 0. -/
def storeAged : Store :=
  { tunnels := [rowOf "a1" 30010 false, rowOf "a2" 30011 true],
    reserved := [],
    user_stats := [] }

/-! # Properties -/

/-! ## The stale tunnel collector (C10) -/

/-- The rows left by one collector iteration, for arbitrary clock readings of the
two statements. -/
theorem cleanupStaleTunnels_tunnels (db : Store) (now1 now2 : Nat) :
    (cleanupStaleTunnels db now1 now2).tunnels = db.tunnels.filter (fun t =>
      !(t.active == false && decide (t.created_at + 10 * minute < now1)) &&
      !(t.active == true && decide (t.last_active + 30 * minute < now2))) := by
  simp [cleanupStaleTunnels, deleteIdle, deleteUnactivated, List.filter_filter, Bool.and_comm]

/-- C10: after one collector cycle at store time `now` the `tunnels` table is the
old table restricted (rows, order and multiplicity unchanged) to the rows that are
neither inactive with `created_at` earlier than `now` minus 10 minutes nor active
with `last_active` earlier than `now` minus 30 minutes.  In particular an inactive
row older than 10 minutes is gone, and an inactive row not older than 10 minutes
or an active row used within the last 30 minutes is still there.  The other tables
are untouched. -/
theorem C10_collector_cycle (db : Store) (now : Nat) :
    ((cleanupStaleTunnels db now now).tunnels = db.tunnels.filter (fun t =>
        !(t.active == false && decide (t.created_at + 10 * minute < now)) &&
        !(t.active == true && decide (t.last_active + 30 * minute < now))))
    ∧ (∀ t, t ∈ (cleanupStaleTunnels db now now).tunnels ↔
        t ∈ db.tunnels ∧ ¬ (t.active = false ∧ t.created_at + 10 * minute < now) ∧
          ¬ (t.active = true ∧ t.last_active + 30 * minute < now))
    ∧ (∀ t ∈ db.tunnels, t.active = false → t.created_at + 10 * minute < now →
        t ∉ (cleanupStaleTunnels db now now).tunnels)
    ∧ (∀ t ∈ db.tunnels, t.active = false → now ≤ t.created_at + 10 * minute →
        t ∈ (cleanupStaleTunnels db now now).tunnels)
    ∧ (∀ t ∈ db.tunnels, t.active = true → now ≤ t.last_active + 30 * minute →
        t ∈ (cleanupStaleTunnels db now now).tunnels)
    ∧ (cleanupStaleTunnels db now now).reserved = db.reserved
    ∧ (cleanupStaleTunnels db now now).user_stats = db.user_stats := by
  have hmem : ∀ t, t ∈ (cleanupStaleTunnels db now now).tunnels ↔
        t ∈ db.tunnels ∧ ¬ (t.active = false ∧ t.created_at + 10 * minute < now) ∧
          ¬ (t.active = true ∧ t.last_active + 30 * minute < now) := by
    intro t
    rw [cleanupStaleTunnels_tunnels]
    simp only [List.mem_filter, Bool.and_eq_true, Bool.not_eq_true', Bool.and_eq_false_iff,
      beq_iff_eq, decide_eq_false_iff_not, decide_eq_true_eq, not_and, and_congr_right_iff]
    intro _
    cases t.active <;> simp
  refine ⟨cleanupStaleTunnels_tunnels db now now, hmem, ?_, ?_, ?_, rfl, rfl⟩
  · intro t _ ha hlt hin
    exact ((hmem t).1 hin).2.1 ⟨ha, hlt⟩
  · intro t ht ha hle
    refine (hmem t).2 ⟨ht, ?_, ?_⟩
    · intro h; omega
    · intro h; simp [ha] at h
  · intro t ht ha hle
    refine (hmem t).2 ⟨ht, ?_, ?_⟩
    · intro h; simp [ha] at h
    · intro h; omega

/-! ## Activation (C6) -/

theorem activateRow_tunnels (db : Store) (token : String) (publicPort : Int) (dbNow : Nat) :
    (activateRow db token publicPort dbNow).2.tunnels = db.tunnels.map (fun t =>
      if activateHit token publicPort t then
        { t with active := true, last_active := dbNow }
      else t) := by
  unfold activateRow
  simp only []
  split <;> rfl

theorem activateRow_snd (db : Store) (token : String) (publicPort : Int) (dbNow : Nat) :
    (activateRow db token publicPort dbNow).2 = { db with tunnels := db.tunnels.map (fun t =>
      if activateHit token publicPort t then
        { t with active := true, last_active := dbNow }
      else t) } := by
  unfold activateRow
  simp only []
  split <;> rfl

theorem activateRow_fst (db : Store) (token : String) (publicPort : Int) (dbNow : Nat) :
    (activateRow db token publicPort dbNow).1 =
      if db.tunnels.countP (activateHit token publicPort) = 0 then .failure else .ok := by
  unfold activateRow
  simp only []
  split <;> rfl

theorem activateHit_update (token : String) (publicPort : Int) (dbNow : Nat) (t : Tunnel) :
    activateHit token publicPort (if activateHit token publicPort t then
        { t with active := true, last_active := dbNow } else t) =
      activateHit token publicPort t := by
  split <;> rfl

theorem activateHit_iff (token : String) (publicPort : Int) (t : Tunnel) :
    activateHit token publicPort t = true ↔
      t.token = token ∧ (t.public_port : Int) = publicPort := by
  simp [activateHit]

theorem map_noHit (l : List Tunnel) (token : String) (publicPort : Int) (dbNow : Nat)
    (h : ∀ t ∈ l, activateHit token publicPort t = false) :
    l.map (fun t => if activateHit token publicPort t then
        { t with active := true, last_active := dbNow } else t) = l := by
  induction l with
  | nil => rfl
  | cons a l ih =>
    simp only [List.map_cons]
    rw [h a (List.mem_cons_self _ _), ih (fun t ht => h t (List.mem_cons_of_mem _ ht))]
    simp

/-- C6: `Activate(token, publicPort)` fails exactly when no tunnel row has that
`(token, public_port)` pair, and then leaves the database as it was.  In every case
the rows keep their position and every field other than `active` and `last_active`;
a matching row ends with `active = true` and `last_active` refreshed, a row that
does not match is unchanged, and the other tables are untouched.  Activating a
second time has the same status and leaves the same database as activating once at
the later store time, so the two states differ at most in `last_active`.  The
`activate` command on `token:publicPort` is this operation. -/
theorem C6_activate (db : Store) (token : String) (publicPort : Int) (dbNow : Nat) :
    ((activateRow db token publicPort dbNow).1 = .failure ↔
        ∀ t ∈ db.tunnels, ¬ (t.token = token ∧ (t.public_port : Int) = publicPort))
    ∧ ((activateRow db token publicPort dbNow).1 = .failure →
        (activateRow db token publicPort dbNow).2 = db)
    ∧ List.Forall₂ (fun t t' =>
        t'.token = t.token ∧ t'.alias_ = t.alias_ ∧ t'.port = t.port ∧
        t'.public_port = t.public_port ∧ t'.created_at = t.created_at ∧ t'.type = t.type ∧
        ((t.token = token ∧ (t.public_port : Int) = publicPort) →
          t'.active = true ∧ t'.last_active = dbNow) ∧
        (¬ (t.token = token ∧ (t.public_port : Int) = publicPort) → t' = t))
        db.tunnels (activateRow db token publicPort dbNow).2.tunnels
    ∧ (activateRow db token publicPort dbNow).2.reserved = db.reserved
    ∧ (activateRow db token publicPort dbNow).2.user_stats = db.user_stats
    ∧ (∀ dbNow2, activateRow (activateRow db token publicPort dbNow).2 token publicPort dbNow2
        = activateRow db token publicPort dbNow2)
    ∧ (∀ arg p, splitArg arg = [token, p] → atoi p = some publicPort →
        activate db arg dbNow = activateRow db token publicPort dbNow) := by
  have hfail : (activateRow db token publicPort dbNow).1 = .failure ↔
        ∀ t ∈ db.tunnels, ¬ (t.token = token ∧ (t.public_port : Int) = publicPort) := by
    unfold activateRow
    simp only []
    split
    · rename_i h
      simp only [true_iff]
      intro t ht hh
      rw [List.countP_eq_zero] at h
      exact h t ht ((activateHit_iff _ _ _).2 hh)
    · rename_i h
      simp only [false_iff, reduceCtorEq]
      intro hh
      apply h
      rw [List.countP_eq_zero]
      intro t ht
      simpa [activateHit_iff] using hh t ht
  refine ⟨hfail, ?_, ?_, ?_, ?_, ?_, ?_⟩
  · intro h
    have h2 := hfail.1 h
    have h3 : (activateRow db token publicPort dbNow).2.tunnels = db.tunnels := by
      rw [activateRow_tunnels]
      apply map_noHit
      intro t ht
      have := h2 t ht
      rw [← activateHit_iff] at this
      simpa using this
    rw [activateRow_snd]
    rw [activateRow_tunnels] at h3
    rw [h3]
  · rw [activateRow_tunnels, List.forall₂_map_right_iff, List.forall₂_same]
    intro t _
    by_cases hh : activateHit token publicPort t = true
    · simp [hh, (activateHit_iff _ _ _).1 hh]
    · have hn := mt (activateHit_iff token publicPort t).2 hh
      simp [hh, hn]
  · unfold activateRow; simp only []; split <;> rfl
  · unfold activateRow; simp only []; split <;> rfl
  · intro dbNow2
    apply Prod.ext
    · rw [activateRow_fst, activateRow_fst, activateRow_tunnels, List.countP_map]
      have : (activateHit token publicPort ∘ fun t => if activateHit token publicPort t then
          { t with active := true, last_active := dbNow } else t) = activateHit token publicPort := by
        funext t
        exact activateHit_update token publicPort dbNow t
      rw [this]
    · rw [activateRow_snd, activateRow_snd, activateRow_snd]
      simp only [List.map_map, Store.mk.injEq, and_true, true_and]
      apply List.map_congr_left
      intro t _
      simp only [Function.comp]
      by_cases hh : activateHit token publicPort t = true
      · have h2 : activateHit token publicPort { t with active := true, last_active := dbNow } = true := hh
        simp [hh, h2]
      · simp [hh]
  · intro arg p hs ha
    simp [activate, hs, ha]

/-! ## Create: auxiliary facts -/

theorem ensureUserStats_tunnels (db : Store) (token : String) (env : CreateEnv) :
    (ensureUserStats db token env).tunnels = db.tunnels := by
  unfold ensureUserStats; split <;> rfl

theorem ensureUserStats_reserved (db : Store) (token : String) (env : CreateEnv) :
    (ensureUserStats db token env).reserved = db.reserved := by
  unfold ensureUserStats; split <;> rfl

theorem canCreateTunnel_tunnels (db : Store) (token : String) (env : CreateEnv) :
    (canCreateTunnel db token env).2.tunnels = db.tunnels := by
  unfold canCreateTunnel
  simp only []
  repeat' split
  all_goals simp [updateUserStats, ensureUserStats_tunnels]

theorem canCreateTunnel_reserved (db : Store) (token : String) (env : CreateEnv) :
    (canCreateTunnel db token env).2.reserved = db.reserved := by
  unfold canCreateTunnel
  simp only []
  repeat' split
  all_goals simp [updateUserStats, ensureUserStats_reserved]

theorem isReserved_congr (typ val : String) (db db' : Store) (h : db'.reserved = db.reserved) :
    isReserved typ val db' = isReserved typ val db := by
  simp [isReserved, h]

/-- The count of `isReserved` is positive exactly when the pair is a row of `reserved`. -/
theorem isReserved_iff (typ val : String) (db : Store) :
    isReserved typ val db = true ↔
      ({ alias_or_port := val, type := typ } : Reservation) ∈ db.reserved := by
  unfold isReserved
  rw [decide_eq_true_eq, List.countP_pos_iff]
  constructor
  · rintro ⟨r, hr, h⟩
    simp only [Bool.and_eq_true, beq_iff_eq] at h
    obtain ⟨h1, h2⟩ := h
    cases r
    simp only at h1 h2
    subst h1 h2
    exact hr
  · intro h
    exact ⟨_, h, by simp⟩

theorem findFreePort_congr (db db' : Store) (h1 : db'.tunnels = db.tunnels)
    (h2 : db'.reserved = db.reserved) (samples : List (Fin 30000)) :
    findFreePort db' samples = findFreePort db samples := by
  induction samples with
  | nil => rfl
  | cons r rest ih =>
    simp only [findFreePort, h1, isReserved_congr _ _ db db' h2, ih]

theorem pickAlias_congr (db db' : Store) (h2 : db'.reserved = db.reserved)
    (samples : List (Fin 6 × Fin 6)) :
    pickAlias db' samples = pickAlias db samples := by
  induction samples with
  | nil => rfl
  | cons r rest ih =>
    obtain ⟨i, j⟩ := r
    simp only [pickAlias, isReserved_congr _ _ db db' h2, ih]

/-- The port returned by `findFreePort` comes from a sample, has no tunnel row and is
not reserved. -/
theorem findFreePort_some (db : Store) (samples : List (Fin 30000)) (p : Nat)
    (h : findFreePort db samples = some p) :
    (∃ r ∈ samples, p = r.val + 30000) ∧
      db.tunnels.countP (fun t => t.public_port == p) = 0 ∧
      isReserved "port" (toString p) db = false := by
  induction samples with
  | nil => simp [findFreePort] at h
  | cons r rest ih =>
    simp only [findFreePort] at h
    split at h
    · rename_i hc
      injection h with h
      subst h
      exact ⟨⟨r, List.mem_cons_self _ _, rfl⟩, hc.1, hc.2⟩
    · obtain ⟨⟨r', hr', hp⟩, h2⟩ := ih h
      exact ⟨⟨r', List.mem_cons_of_mem _ hr', hp⟩, h2⟩

/-- The loop of `findFreePort` ends as soon as one of the samples is free. -/
theorem findFreePort_isSome (db : Store) (samples : List (Fin 30000))
    (h : ∃ r ∈ samples, db.tunnels.countP (fun t => t.public_port == r.val + 30000) = 0 ∧
      isReserved "port" (toString (r.val + 30000)) db = false) :
    (findFreePort db samples).isSome = true := by
  induction samples with
  | nil => simp at h
  | cons r rest ih =>
    simp only [findFreePort]
    split
    · rfl
    · rename_i hc
      apply ih
      obtain ⟨r', hr', hfree⟩ := h
      rcases List.mem_cons.1 hr' with rfl | hin
      · exact absurd hfree hc
      · exact ⟨r', hin, hfree⟩

/-- The alias leaving the loop of lines 64-67 comes from a sample and is not reserved. -/
theorem pickAlias_some (db : Store) (samples : List (Fin 6 × Fin 6)) (a : String)
    (h : pickAlias db samples = some a) :
    (∃ s ∈ samples, a = generateAlias s.1 s.2) ∧ isReserved "alias" a db = false := by
  induction samples with
  | nil => simp [pickAlias] at h
  | cons r rest ih =>
    obtain ⟨i, j⟩ := r
    simp only [pickAlias] at h
    split at h
    · obtain ⟨⟨s, hs, ha⟩, h2⟩ := ih h
      exact ⟨⟨s, List.mem_cons_of_mem _ hs, ha⟩, h2⟩
    · rename_i hc
      injection h with h
      subst h
      exact ⟨⟨(i, j), List.mem_cons_self _ _, rfl⟩, by simpa using hc⟩

/-- Either `createRow` prints nothing and leaves the database as it was, or it found a
free port, the alias was unused, and the new row was appended. -/
theorem createRow_cases (db : Store) (token alias_ : String) (env : CreateEnv) :
    ((createRow db token alias_ env).2 = db ∧
        ∀ a p q, (createRow db token alias_ env).1 ≠ .printed a p q) ∨
      ∃ port, findFreePort db env.portSamples = some port ∧
        (∀ t ∈ db.tunnels, t.alias_ ≠ alias_) ∧
        createRow db token alias_ env =
          (.printed alias_ port port,
            { db with tunnels := db.tunnels ++ [newRow token alias_ port env] }) := by
  unfold createRow
  cases hf : findFreePort db env.portSamples with
  | none => left; simp
  | some port =>
    simp only []
    unfold insertTunnel
    by_cases hany : (db.tunnels.any fun t => t.alias_ == (newRow token alias_ port env).alias_ ||
        t.public_port == (newRow token alias_ port env).public_port) = true
    · left
      simp [hany]
    · right
      refine ⟨port, rfl, ?_, ?_⟩
      · intro t ht hEq
        apply hany
        simp only [List.any_eq_true]
        exact ⟨t, ht, by simp [hEq, newRow]⟩
      · simp [hany]
/-- Either `create` prints nothing and leaves the database of `canCreateTunnel`, or it
was let through, found a free port and an alias that is neither reserved nor used,
and appended the new row. -/
theorem create_cases (db : Store) (arg : String) (env : CreateEnv) :
    ((create db arg env).2 = (canCreateTunnel db (argToken arg) env).2 ∧
        ∀ a p q, (create db arg env).1 ≠ .printed a p q) ∨
      ∃ a port, (canCreateTunnel db (argToken arg) env).1 = true ∧
        findFreePort db env.portSamples = some port ∧
        (∀ t ∈ db.tunnels, t.alias_ ≠ a) ∧
        isReserved "alias" a db = false ∧
        (argAlias arg = "" → pickAlias db env.aliasSamples = some a) ∧
        (argAlias arg ≠ "" → a = argAlias arg) ∧
        create db arg env =
          (.printed a port port,
            { (canCreateTunnel db (argToken arg) env).2 with
              tunnels := db.tunnels ++ [newRow (argToken arg) a port env] }) := by
  have ht := canCreateTunnel_tunnels db (argToken arg) env
  have hr := canCreateTunnel_reserved db (argToken arg) env
  unfold create
  simp only []
  rcases hc : canCreateTunnel db (argToken arg) env with ⟨ok, db1⟩
  rw [hc] at ht hr
  simp only at ht hr
  cases ok with
  | false => left; simp
  | true =>
    simp only []
    have key : ∀ a, isReserved "alias" a db1 = false →
        (argAlias arg = "" → pickAlias db env.aliasSamples = some a) →
        (argAlias arg ≠ "" → a = argAlias arg) →
        (((createRow db1 (argToken arg) a env).2 = db1 ∧
          ∀ a' p q, (createRow db1 (argToken arg) a env).1 ≠ .printed a' p q) ∨
        ∃ a' port, true = true ∧ findFreePort db env.portSamples = some port ∧
          (∀ t ∈ db.tunnels, t.alias_ ≠ a') ∧ isReserved "alias" a' db = false ∧
          (argAlias arg = "" → pickAlias db env.aliasSamples = some a') ∧
          (argAlias arg ≠ "" → a' = argAlias arg) ∧
          createRow db1 (argToken arg) a env = (.printed a' port port,
            { db1 with tunnels := db.tunnels ++ [newRow (argToken arg) a' port env] })) := by
      intro a hres h1 h2
      rcases createRow_cases db1 (argToken arg) a env with h | ⟨port, hf, hal, heq⟩
      · exact Or.inl h
      · right
        refine ⟨a, port, rfl, ?_, ?_, ?_, h1, h2, ?_⟩
        · rw [← hf]; exact (findFreePort_congr db db1 ht hr _).symm
        · rw [← ht]; exact hal
        · rw [← hres]; exact (isReserved_congr _ _ db db1 hr).symm
        · rw [heq, ht]
    by_cases hreq : argAlias arg = ""
    · simp only [hreq, if_true]
      cases hp : pickAlias db1 env.aliasSamples with
      | none => left; simp
      | some a =>
        simp only []
        have hp' : pickAlias db env.aliasSamples = some a := by
          rw [← hp]; exact (pickAlias_congr db db1 hr _).symm
        have := key a (pickAlias_some db1 _ a hp).2 (fun _ => hp') (fun h => absurd hreq h)
        simpa [hreq] using this
    · simp only [hreq, if_false]
      by_cases hres : isReserved "alias" (argAlias arg) db1 = true
      · left; simp [hres]
      · simp only [hres]
        have := key (argAlias arg) (by simpa using hres) (fun h => absurd h hreq) (fun _ => rfl)
        simpa [hreq] using this

/-! ## Create: ports, aliases, reservations, postcondition (C3, C4, C5, C8) -/

theorem splitColon_of_not_mem (l : List Char) (h : ':' ∉ l) : splitColon l = [l] := by
  induction l with
  | nil => rfl
  | cons c cs ih =>
    have hc : c ≠ ':' := fun e => h (e ▸ List.mem_cons_self _ _)
    have hcs : ':' ∉ cs := fun e => h (List.mem_cons_of_mem _ e)
    simp [splitColon, hc, ih hcs]

theorem splitColon_append (t a : List Char) (h : ':' ∉ t) :
    splitColon (t ++ ':' :: a) = t :: splitColon a := by
  induction t with
  | nil => simp [splitColon]
  | cons c cs ih =>
    have hc : c ≠ ':' := fun e => h (e ▸ List.mem_cons_self _ _)
    have hcs : ':' ∉ cs := fun e => h (List.mem_cons_of_mem _ e)
    simp [splitColon, hc, ih hcs]

/-- Splitting `token:a` gives the two parts when neither contains a colon. -/
theorem splitArg_pair (token a : String) (ht : ':' ∉ token.data) (ha : ':' ∉ a.data) :
    splitArg (token ++ ":" ++ a) = [token, a] := by
  unfold splitArg
  have : (token ++ ":" ++ a).data = token.data ++ ':' :: a.data := by
    simp [String.data_append]
  rw [this, splitColon_append _ _ ht, splitColon_of_not_mem _ ha]
  rfl

theorem countP_port_zero (db : Store) (p : Nat)
    (h : db.tunnels.countP (fun t => t.public_port == p) = 0) :
    ∀ t ∈ db.tunnels, t.public_port ≠ p := by
  intro t ht hEq
  rw [List.countP_eq_zero] at h
  exact h t ht (by simp [hEq])

/-- C3: whenever `findFreePort` returns a port `p`, `p` lies in 30000..59999, is one
of the samples drawn, is the `public_port` of no tunnel row (active or not) and is
not a reservation of type `port`; it does return as soon as one sample is free.
Consequently a table in which `public_port` is unique stays so when the row of a
`create` is added, and after any `create`. -/
theorem C3_port_allocation (db : Store) :
    (∀ samples p, findFreePort db samples = some p →
        30000 ≤ p ∧ p ≤ 59999 ∧ (∃ r ∈ samples, p = r.val + 30000) ∧
        (∀ t ∈ db.tunnels, t.public_port ≠ p) ∧
        ({ alias_or_port := toString p, type := "port" } : Reservation) ∉ db.reserved)
    ∧ (∀ samples, (∃ r ∈ samples, (∀ t ∈ db.tunnels, t.public_port ≠ r.val + 30000) ∧
          ({ alias_or_port := toString (r.val + 30000), type := "port" } : Reservation)
            ∉ db.reserved) →
        (findFreePort db samples).isSome = true)
    ∧ (∀ samples p token alias_ env, findFreePort db samples = some p →
        (db.tunnels.map (fun t => t.public_port)).Nodup →
        ((db.tunnels ++ [newRow token alias_ p env]).map (fun t => t.public_port)).Nodup)
    ∧ (∀ arg env, (db.tunnels.map (fun t => t.public_port)).Nodup →
        ((create db arg env).2.tunnels.map (fun t => t.public_port)).Nodup) := by
  have hfree : ∀ samples p, findFreePort db samples = some p →
        30000 ≤ p ∧ p ≤ 59999 ∧ (∃ r ∈ samples, p = r.val + 30000) ∧
        (∀ t ∈ db.tunnels, t.public_port ≠ p) ∧
        ({ alias_or_port := toString p, type := "port" } : Reservation) ∉ db.reserved := by
    intro samples p h
    obtain ⟨⟨r, hr, hp⟩, hc, hres⟩ := findFreePort_some db samples p h
    have hlt := r.isLt
    refine ⟨by omega, by omega, ⟨r, hr, hp⟩, countP_port_zero db p hc, ?_⟩
    intro hin
    rw [(isReserved_iff _ _ _).2 hin] at hres
    exact Bool.noConfusion hres
  have happ : ∀ samples p token alias_ env, findFreePort db samples = some p →
        (db.tunnels.map (fun t => t.public_port)).Nodup →
        ((db.tunnels ++ [newRow token alias_ p env]).map (fun t => t.public_port)).Nodup := by
    intro samples p token alias_ env h hnd
    rw [List.map_append, List.nodup_append]
    refine ⟨hnd, by simp, ?_⟩
    intro x hx hx'
    simp only [List.map_cons, List.map_nil, List.mem_singleton] at hx'
    obtain ⟨t, ht, rfl⟩ := List.mem_map.1 hx
    exact (hfree samples p h).2.2.2.1 t ht hx'
  refine ⟨hfree, ?_, happ, ?_⟩
  · intro samples ⟨r, hr, hports, hres⟩
    apply findFreePort_isSome
    refine ⟨r, hr, ?_, ?_⟩
    · rw [List.countP_eq_zero]
      intro t ht
      simpa using hports t ht
    · cases hb : isReserved "port" (toString (r.val + 30000)) db with
      | false => rfl
      | true => exact absurd ((isReserved_iff _ _ _).1 hb) hres
  · intro arg env hnd
    rcases create_cases db arg env with ⟨h, _⟩ | ⟨a, port, _, hf, _, _, _, _, heq⟩
    · rw [h, canCreateTunnel_tunnels]; exact hnd
    · rw [heq]
      exact happ _ port _ a env hf hnd

/-- C4: if no two tunnel rows share an alias before a `create` (with a requested
alias or a generated one), none do after it. -/
theorem C4_alias_unique (db : Store) (arg : String) (env : CreateEnv)
    (h : (db.tunnels.map (fun t => t.alias_)).Nodup) :
    ((create db arg env).2.tunnels.map (fun t => t.alias_)).Nodup := by
  rcases create_cases db arg env with ⟨h', _⟩ | ⟨a, port, _, _, hal, _, _, _, heq⟩
  · rw [h', canCreateTunnel_tunnels]; exact h
  · rw [heq]
    simp only [List.map_append, List.map_cons, List.map_nil]
    rw [List.nodup_append]
    refine ⟨h, by simp, ?_⟩
    intro x hx hx'
    simp only [List.mem_singleton] at hx'
    obtain ⟨t, ht, rfl⟩ := List.mem_map.1 hx
    exact hal t ht hx'

/-- C5: a `create` whose requested alias is a reservation of type `alias` exits
with status 1 and leaves the `tunnels` table unchanged, whatever the token and the
database; and when `create` generates the alias itself and inserts a row, the
alias of that row is one of the generated samples and is not a reservation of type
`alias`.  The argument `token:a` (neither part containing a colon) has token
`token` and requested alias `a`. -/
theorem C5_reserved_alias (db : Store) (arg : String) (env : CreateEnv) :
    (argAlias arg ≠ "" →
        ({ alias_or_port := argAlias arg, type := "alias" } : Reservation) ∈ db.reserved →
        (create db arg env).1 = .exit1 ∧ (create db arg env).2.tunnels = db.tunnels)
    ∧ (argAlias arg = "" → ∀ a port publicPort,
        (create db arg env).1 = .printed a port publicPort →
        ({ alias_or_port := a, type := "alias" } : Reservation) ∉ db.reserved ∧
        (∃ s ∈ env.aliasSamples, a = generateAlias s.1 s.2) ∧
        (create db arg env).2.tunnels = db.tunnels ++ [newRow (argToken arg) a port env])
    ∧ (∀ token a, ':' ∉ token.data → ':' ∉ a.data →
        argToken (token ++ ":" ++ a) = token ∧ argAlias (token ++ ":" ++ a) = a) := by
  refine ⟨?_, ?_, ?_⟩
  · intro hne hres
    rcases create_cases db arg env with ⟨h', hnp⟩ | ⟨a, port, _, _, _, hnr, _, ha, _⟩
    · refine ⟨?_, by rw [h', canCreateTunnel_tunnels]⟩
      have hr := canCreateTunnel_reserved db (argToken arg) env
      have hres' : isReserved "alias" (argAlias arg) (canCreateTunnel db (argToken arg) env).2
          = true := by
        rw [isReserved_congr _ _ db _ hr]; exact (isReserved_iff _ _ _).2 hres
      unfold create
      simp only []
      rcases hc : canCreateTunnel db (argToken arg) env with ⟨ok, db1⟩
      rw [hc] at hres'
      cases ok with
      | false => rfl
      | true => simp [hne, hres']
    · rw [ha hne, (isReserved_iff _ _ _).2 hres] at hnr
      exact Bool.noConfusion hnr
  · intro he a port publicPort hp
    rcases create_cases db arg env with ⟨_, hnp⟩ | ⟨a', port', _, _, _, hnr, hpick, _, heq⟩
    · exact absurd hp (hnp _ _ _)
    · rw [heq] at hp
      simp only [CreateResult.printed.injEq] at hp
      obtain ⟨rfl, rfl, _⟩ := hp
      refine ⟨?_, (pickAlias_some db _ _ (hpick he)).1, by rw [heq]⟩
      intro hin
      rw [(isReserved_iff _ _ _).2 hin] at hnr
      exact Bool.noConfusion hnr
  · intro token a ht ha
    simp [argToken, argAlias, splitArg_pair token a ht ha]

/-- C8: a `create` that prints `alias:port:publicPort` has `port = publicPort` and
appends exactly one row to `tunnels`, carrying the token of the argument, the
printed alias and port, `public_port = port` and `active = false`; the existing
rows and the reservations are unchanged, so the active rows and the answers of
`get` and `get-by-alias` are the same as before. -/
theorem C8_create_postcondition (db : Store) (arg : String) (env : CreateEnv)
    (a : String) (port publicPort : Nat)
    (h : (create db arg env).1 = .printed a port publicPort) :
    port = publicPort
    ∧ (∃ row : Tunnel, (create db arg env).2.tunnels = db.tunnels ++ [row] ∧
        row.token = argToken arg ∧ row.alias_ = a ∧ row.port = port ∧
        row.public_port = publicPort ∧ row.active = false ∧
        row.created_at = env.rowStamp ∧ row.last_active = env.rowStamp)
    ∧ (create db arg env).2.reserved = db.reserved
    ∧ (create db arg env).2.tunnels.filter (fun t => t.active)
        = db.tunnels.filter (fun t => t.active)
    ∧ (∀ token, get (create db arg env).2 token = get db token)
    ∧ (∀ al, getByAlias (create db arg env).2 al = getByAlias db al) := by
  rcases create_cases db arg env with ⟨_, hnp⟩ | ⟨a', port', _, _, _, _, _, _, heq⟩
  · exact absurd h (hnp _ _ _)
  · rw [heq] at h
    simp only [CreateResult.printed.injEq] at h
    obtain ⟨rfl, rfl, rfl⟩ := h
    rw [heq]
    refine ⟨rfl, ⟨newRow (argToken arg) a' port' env, rfl, rfl, rfl, rfl, rfl, rfl, rfl, rfl⟩,
      canCreateTunnel_reserved db _ env, ?_, ?_, ?_⟩
    · simp [List.filter_append, newRow]
    · intro token
      simp [get, List.find?_append, newRow]
    · intro al
      simp [getByAlias, List.find?_append, newRow]

/-! ## The reconciliation loop (C9) -/


/-- What `canCreateTunnel` has read and written when it answers `true`. -/
theorem canCreateTunnel_true (db : Store) (token : String) (env : CreateEnv)
    (h : (canCreateTunnel db token env).1 = true) :
    ∃ u l c, statsOf (ensureUserStats db token env) token = some u ∧
      u.last_creation_attempt = some l ∧ rateCheck env.now l u.creation_count = some c ∧
      activeCount db token < u.max_tunnels ∧
      (canCreateTunnel db token env).2 =
        updateUserStats (ensureUserStats db token env) token env.statsStamp c := by
  unfold canCreateTunnel at h ⊢
  simp only [] at h ⊢
  unfold statsOf
  split at h
  · simp at h
  · rename_i u hu
    split at h
    · simp at h
    · rename_i l hl
      split at h
      · simp at h
      · rename_i c hc
        split at h
        · simp at h
        · rename_i hq
          refine ⟨u, l, c, hu, hl, hc, ?_, ?_⟩
          · rw [ensureUserStats_tunnels] at hq
            simpa [activeCount] using hq
          · simp only [hq, if_false]

/-- A rejection by `canCreateTunnel` writes nothing beyond the insert-if-absent. -/
theorem canCreateTunnel_false (db : Store) (token : String) (env : CreateEnv)
    (h : (canCreateTunnel db token env).1 = false) :
    (canCreateTunnel db token env).2 = ensureUserStats db token env := by
  unfold canCreateTunnel at h ⊢
  simp only [] at h ⊢
  split
  · rfl
  · split
    · rfl
    · split
      · rfl
      · split
        · rfl
        · rename_i u hu _ l hl _ c hc hq
          rw [hu] at h
          simp [hl, hc, hq] at h

/-- Once the rate check has passed, the verdict is that of the active-tunnel check, and
the `UPDATE` is executed only when it passes. -/
theorem canCreateTunnel_quota (db : Store) (token : String) (env : CreateEnv)
    (u : UserStats) (l c : Nat)
    (hu : statsOf (ensureUserStats db token env) token = some u)
    (hl : u.last_creation_attempt = some l)
    (hc : rateCheck env.now l u.creation_count = some c) :
    canCreateTunnel db token env =
      if activeCount db token ≥ u.max_tunnels then (false, ensureUserStats db token env)
      else (true, updateUserStats (ensureUserStats db token env) token env.statsStamp c) := by
  unfold statsOf at hu
  unfold canCreateTunnel
  simp only [hu, hl, hc, ensureUserStats_tunnels, activeCount]

theorem ensureUserStats_of_some (db : Store) (token : String) (env : CreateEnv) (u : UserStats)
    (h : statsOf db token = some u) : ensureUserStats db token env = db := by
  unfold ensureUserStats
  have : db.user_stats.any (fun u => u.token == token) = true := by
    rw [List.any_eq_true]
    unfold statsOf at h
    have hp := List.find?_some h
    exact ⟨u, List.mem_of_find?_eq_some h, hp⟩
  simp [this]

theorem statsOf_ensure_other (db : Store) (token other : String) (env : CreateEnv)
    (h : other ≠ token) :
    statsOf (ensureUserStats db other env) token = statsOf db token := by
  unfold ensureUserStats
  split
  · rfl
  · simp [statsOf, List.find?_append, h]

theorem find_update_same (l : List UserStats) (token : String) (stamp c : Nat) :
    (l.map (fun u => if u.token = token then
        { u with last_creation_attempt := some stamp, creation_count := c } else u)).find?
      (fun u => u.token == token) =
    (l.find? (fun u => u.token == token)).map
      (fun u => { u with last_creation_attempt := some stamp, creation_count := c }) := by
  induction l with
  | nil => rfl
  | cons a rest ih =>
    by_cases ha : a.token = token
    · simp [List.find?_cons, ha]
    · simp [List.find?_cons, ha, ih]

theorem find_update_other (l : List UserStats) (token other : String) (stamp c : Nat)
    (h : other ≠ token) :
    (l.map (fun u => if u.token = other then
        { u with last_creation_attempt := some stamp, creation_count := c } else u)).find?
      (fun u => u.token == token) =
    l.find? (fun u => u.token == token) := by
  induction l with
  | nil => rfl
  | cons a rest ih =>
    by_cases ha : a.token = other
    · have : a.token ≠ token := fun e => h (ha ▸ e)
      simp [List.find?_cons, ha, ih, h]
    · simp only [List.map_cons, ha, if_false, List.find?_cons, ih]

theorem statsOf_update_same (db : Store) (token : String) (stamp c : Nat) :
    statsOf (updateUserStats db token stamp c) token =
      (statsOf db token).map
        (fun u => { u with last_creation_attempt := some stamp, creation_count := c }) :=
  find_update_same db.user_stats token stamp c

theorem statsOf_update_other (db : Store) (token other : String) (stamp c : Nat)
    (h : other ≠ token) :
    statsOf (updateUserStats db other stamp c) token = statsOf db token :=
  find_update_other db.user_stats token other stamp c h

theorem create_user_stats (db : Store) (arg : String) (env : CreateEnv) :
    (create db arg env).2.user_stats = (canCreateTunnel db (argToken arg) env).2.user_stats := by
  rcases create_cases db arg env with ⟨h, _⟩ | ⟨a, port, _, _, _, _, _, _, heq⟩
  · rw [h]
  · rw [heq]

theorem statsOf_congr (db db' : Store) (token : String) (h : db'.user_stats = db.user_stats) :
    statsOf db' token = statsOf db token := by
  simp [statsOf, h]

theorem activate_user_stats (db : Store) (arg : String) (dbNow : Nat) :
    (activate db arg dbNow).2.user_stats = db.user_stats := by
  unfold activate
  split
  · split
    · rfl
    · rw [activateRow_snd]
  · rfl

theorem statsOf_canCreate_other (db : Store) (token other : String) (env : CreateEnv)
    (h : other ≠ token) :
    statsOf (canCreateTunnel db other env).2 token = statsOf db token := by
  cases hc : (canCreateTunnel db other env).1 with
  | false => rw [canCreateTunnel_false db other env hc, statsOf_ensure_other db token other env h]
  | true =>
    obtain ⟨u, l, c, _, _, _, _, heq⟩ := canCreateTunnel_true db other env hc
    rw [heq, statsOf_update_other _ token other _ _ h, statsOf_ensure_other db token other env h]

/-- An operation that is not a `create` for `token` let through by `canCreateTunnel`
leaves an existing statistics row of `token` as it is. -/
theorem step_not_accepted (db : Store) (op : Op) (token : String) (u : UserStats)
    (h : accepted db token op = false) (hu : statsOf db token = some u) :
    statsOf (step db op) token = some u := by
  cases op with
  | create arg env =>
    simp only [step]
    rw [statsOf_congr _ _ token (create_user_stats db arg env)]
    by_cases ht : argToken arg = token
    · simp only [accepted, ht, beq_self_eq_true, Bool.true_and] at h
      rw [ht, canCreateTunnel_false db token env h, ensureUserStats_of_some db token env u hu]
      exact hu
    · rw [statsOf_canCreate_other db token _ env ht]
      exact hu
  | activate arg dbNow =>
    simp only [step]
    rw [statsOf_congr _ _ token (activate_user_stats db arg dbNow)]
    exact hu
  | cleanup now1 now2 =>
    exact hu

/-- A `create` for `token` that is let through writes the stamp and the counter computed
by the rate check into the statistics row of `token`. -/
theorem step_accepted (db : Store) (op : Op) (token : String)
    (h : accepted db token op = true) :
    ∃ arg env u l c, op = Op.create arg env ∧ argToken arg = token ∧
      statsOf (ensureUserStats db token env) token = some u ∧
      u.last_creation_attempt = some l ∧
      rateCheck env.now l u.creation_count = some c ∧
      statsOf (step db op) token =
        some { u with last_creation_attempt := some env.statsStamp, creation_count := c } := by
  cases op with
  | create arg env =>
    simp only [accepted, Bool.and_eq_true, beq_iff_eq] at h
    obtain ⟨ht, hc⟩ := h
    obtain ⟨u, l, c, hu, hl, hr, _, heq⟩ := canCreateTunnel_true db token env hc
    refine ⟨arg, env, u, l, c, rfl, ht, hu, hl, hr, ?_⟩
    simp only [step]
    rw [statsOf_congr _ _ token (create_user_stats db arg env), ht, heq,
      statsOf_update_same, hu]
    rfl
  | activate arg dbNow => simp [accepted] at h
  | cleanup now1 now2 => simp [accepted] at h

theorem rateCheck_pos (now l count c : Nat) (h : rateCheck now l count = some c) : 1 ≤ c := by
  unfold rateCheck at h
  split at h
  · split at h
    · simp at h
    · injection h with h; omega
  · injection h with h; omega

theorem rateCheck_inside (now l count c : Nat) (hin : now < l + creationWindow)
    (h : rateCheck now l count = some c) : count < maxCreationAttempts ∧ c = count + 1 := by
  unfold rateCheck at h
  simp only [hin, if_true] at h
  split at h
  · simp at h
  · injection h with h
    omega

theorem withinWindow_head (token : String) (start : Nat) (arg : String) (env : CreateEnv)
    (ops : List Op) (h : withinWindow token start (Op.create arg env :: ops))
    (ht : argToken arg = token) :
    start ≤ env.statsStamp ∧ env.now < start + creationWindow := by
  have := h _ (List.mem_cons_self _ _)
  simpa [inWindow, ht] using this

theorem withinWindow_tail (token : String) (start : Nat) (op : Op) (ops : List Op)
    (h : withinWindow token start (op :: ops)) : withinWindow token start ops :=
  fun o ho => h o (List.mem_cons_of_mem _ ho)

/-- Once the stored `last_creation_attempt` lies in the window, the number of further
invocations let through is bounded by what is left of the counter. -/
theorem accepted_le_budget (token : String) (start : Nat) (ops : List Op) :
    ∀ (db : Store) (u : UserStats) (l : Nat), withinWindow token start ops →
      statsOf db token = some u → u.last_creation_attempt = some l → start ≤ l →
      countOps (fun d o => accepted d token o) db ops ≤ maxCreationAttempts - u.creation_count := by
  induction ops with
  | nil => intro db u l _ _ _ _; simp [countOps]
  | cons op rest ih =>
    intro db u l hw hu hl hs
    simp only [countOps]
    by_cases hacc : accepted db token op = true
    case neg =>
      rw [if_neg hacc, Nat.zero_add]
      exact ih (step db op) u l (withinWindow_tail _ _ _ _ hw)
        (step_not_accepted db op token u (by simpa using hacc) hu) hl hs
    case pos =>
      rw [if_pos hacc]
      obtain ⟨arg, env, u', l', c, hop, ht, hu', hl', hr, hnew⟩ := step_accepted db op token hacc
      rw [ensureUserStats_of_some db token env u hu, hu] at hu'
      injection hu' with hu'
      subst hu'
      rw [hl] at hl'
      injection hl' with hl'
      subst hl'
      subst hop
      obtain ⟨hst, hnow⟩ := withinWindow_head token start arg env rest hw ht
      obtain ⟨hlt, hc⟩ := rateCheck_inside env.now l u.creation_count c (by omega) hr
      have := ih _ _ env.statsStamp (withinWindow_tail _ _ _ _ hw) hnew rfl hst
      simp only [maxCreationAttempts] at *
      omega

/-- In a run satisfying the window condition at most `maxCreationAttempts` invocations
for `token` are let through. -/
theorem accepted_le_max (token : String) (start : Nat) (ops : List Op) :
    ∀ (db : Store), withinWindow token start ops →
      countOps (fun d o => accepted d token o) db ops ≤ maxCreationAttempts := by
  induction ops with
  | nil => intro db _; simp [countOps]
  | cons op rest ih =>
    intro db hw
    simp only [countOps]
    by_cases hacc : accepted db token op = true
    case neg =>
      rw [if_neg hacc, Nat.zero_add]
      exact ih (step db op) (withinWindow_tail _ _ _ _ hw)
    case pos =>
      rw [if_pos hacc]
      obtain ⟨arg, env, u', l', c, hop, ht, hu', hl', hr, hnew⟩ := step_accepted db op token hacc
      subst hop
      obtain ⟨hst, hnow⟩ := withinWindow_head token start arg env rest hw ht
      have hpos := rateCheck_pos _ _ _ _ hr
      have := accepted_le_budget token start rest _ _ env.statsStamp
        (withinWindow_tail _ _ _ _ hw) hnew rfl hst
      simp only [maxCreationAttempts] at *
      omega

theorem countOps_append (test : Store → Op → Bool) (pre rest : List Op) :
    ∀ db, countOps test db (pre ++ rest) = countOps test db pre + countOps test (run db pre) rest := by
  induction pre with
  | nil => intro db; simp [countOps, run]
  | cons op pre ih =>
    intro db
    show (if test db op then 1 else 0) + countOps test (step db op) (pre ++ rest) = _
    rw [ih (step db op)]
    simp only [countOps, run]
    omega

theorem create_rejected (db : Store) (arg : String) (env : CreateEnv)
    (h : (canCreateTunnel db (argToken arg) env).1 = false) :
    (create db arg env).1 = .exit1 ∧ (create db arg env).2.tunnels = db.tunnels := by
  have ht := canCreateTunnel_tunnels db (argToken arg) env
  unfold create
  simp only []
  rcases hc : canCreateTunnel db (argToken arg) env with ⟨ok, db1⟩
  rw [hc] at h ht
  simp only at h ht
  subst h
  exact ⟨rfl, ht⟩

/-- C1 (amended): in a run whose `create` invocations for `token` all read the clock
less than 60 seconds after an instant `start` and write `last_creation_attempt`
values not before `start`, at most 5 of them are let through by `canCreateTunnel`
(rate check and active-tunnel check both passed), from any initial database and
with any other operations in between; once 5 have been let through, every further
`create` for `token` in the run exits with status 1 and inserts no tunnel row. -/
theorem C1_rate_limit (token : String) (start : Nat) (db : Store) (ops : List Op)
    (h : withinWindow token start ops) :
    countOps (fun d o => accepted d token o) db ops ≤ maxCreationAttempts
    ∧ (∀ pre arg env post, ops = pre ++ Op.create arg env :: post → argToken arg = token →
        countOps (fun d o => accepted d token o) db pre = maxCreationAttempts →
        (create (run db pre) arg env).1 = .exit1 ∧
          (create (run db pre) arg env).2.tunnels = (run db pre).tunnels) := by
  refine ⟨accepted_le_max token start ops db h, ?_⟩
  intro pre arg env post hops ht hpre
  have hle := accepted_le_max token start (pre ++ [Op.create arg env]) db (by
    intro op hop
    apply h op
    rw [hops]
    rcases List.mem_append.1 hop with hp | hp
    · exact List.mem_append_left _ hp
    · simp only [List.mem_singleton] at hp
      subst hp
      exact List.mem_append_right _ (List.mem_cons_self _ _))
  rw [countOps_append, hpre] at hle
  simp only [countOps, Nat.add_zero] at hle
  have hacc : accepted (run db pre) token (Op.create arg env) = false := by
    by_cases hb : accepted (run db pre) token (Op.create arg env) = true
    · rw [if_pos hb] at hle; omega
    · simpa using hb
  apply create_rejected
  rw [ht]
  simpa [accepted, ht] using hacc

/-- Six invocations one second apart: the window condition holds and the bound applies. -/
theorem C1_rate_limit_witness :
    withinWindow "tok" 0 steadyCalls ∧
      countOps (fun d o => accepted d "tok" o) (storeEmpty 10) steadyCalls
        ≤ maxCreationAttempts :=
  ⟨by decide, (C1_rate_limit "tok" 0 (storeEmpty 10) steadyCalls (by decide)).1⟩

/-- C1, as stated, fails.  (a) With `tok` at its cap of active tunnels, six
invocations one second apart all pass the rate check (none is let through, so the
counter never moves).  (b) With store stamps of whole seconds, six invocations at
0.90 s .. 0.94 s and 60.5 s, all inside the 60-second window starting at 0.9 s,
are all let through and create six tunnels. -/
theorem C1_counterexample :
    (callTimesWithin second steadyCalls = true ∧
      countOps (fun d o => ratePassed d "tok" o) storeFull steadyCalls = 6 ∧
      countOps (fun d o => accepted d "tok" o) storeFull steadyCalls = 0)
    ∧ (callTimesWithin 900000000 burstCalls = true ∧
      countOps (fun d o => accepted d "tok" o) (storeEmpty 10) burstCalls = 6 ∧
      (run (storeEmpty 10) burstCalls).tunnels.length = 6) := by
  decide

/-- C7 (amended): when the statistics row of the token is read, the rate check
passes with new counter `c`, and the number of active tunnels has reached
`max_tunnels`, `canCreateTunnel` rejects and writes nothing: the database is the
one left by the insert-if-absent, and the row still carries its old counter and its
old `last_creation_attempt`.  The counter `c` and the refreshed timestamp are
persisted exactly when the active-tunnel check passes too. -/
theorem C7_quota_rejection (db : Store) (token : String) (env : CreateEnv)
    (u : UserStats) (l c : Nat)
    (hu : statsOf (ensureUserStats db token env) token = some u)
    (hl : u.last_creation_attempt = some l)
    (hc : rateCheck env.now l u.creation_count = some c) :
    (activeCount db token ≥ u.max_tunnels →
        canCreateTunnel db token env = (false, ensureUserStats db token env) ∧
        statsOf (canCreateTunnel db token env).2 token = some u)
    ∧ (activeCount db token < u.max_tunnels →
        (canCreateTunnel db token env).1 = true ∧
        statsOf (canCreateTunnel db token env).2 token =
          some { u with last_creation_attempt := some env.statsStamp, creation_count := c }) := by
  have hq := canCreateTunnel_quota db token env u l c hu hl hc
  constructor
  · intro hge
    rw [hq, if_pos hge]
    exact ⟨rfl, hu⟩
  · intro hlt
    rw [hq, if_neg (by omega)]
    refine ⟨rfl, ?_⟩
    simp only [statsOf_update_same, hu]
    rfl

/-- With `tok` at its cap and the counter at 2, a rejected invocation changes nothing. -/
theorem C7_quota_rejection_witness :
    canCreateTunnel storeFull "tok" (envAt (10 * second) [7]) = (false, storeFull) :=
  ((C7_quota_rejection storeFull "tok" (envAt (10 * second) [7])
      { token := "tok", last_creation_attempt := some 0, creation_count := 2, max_tunnels := 1 }
      0 3 (by decide) (by decide) (by decide)).1 (by decide)).1

/-- C7, as stated, fails: with `tok` at its cap and the counter at 2, an invocation
10 s after the last attempt passes the rate check with new counter 3 and is rejected
by the active-tunnel check, and the row keeps counter 2 and timestamp 0. -/
theorem C7_counterexample :
    passesRateCheck storeFull "tok" (envAt (10 * second) [7]) = true
    ∧ rateCheck (10 * second) 0 2 = some 3
    ∧ activeCount storeFull "tok" ≥ 1
    ∧ (canCreateTunnel storeFull "tok" (envAt (10 * second) [7])).1 = false
    ∧ statsOf (canCreateTunnel storeFull "tok" (envAt (10 * second) [7])).2 "tok"
        = some { token := "tok", last_creation_attempt := some 0,
                 creation_count := 2, max_tunnels := 1 }
    ∧ statsOf (canCreateTunnel storeFull "tok" (envAt (10 * second) [7])).2 "tok"
        ≠ some { token := "tok", last_creation_attempt := some (10 * second),
                 creation_count := 3, max_tunnels := 1 } := by
  decide

/-! ## The quota (C2) -/

/-- C2 on the code: from a database without tunnels in which `tok` may have one
active tunnel, two `create` invocations followed by the activation of both tunnels
leave two active tunnels of `tok` while `max_tunnels` is still 1. -/
theorem C2_quota_exceeded :
    activeCount (storeEmpty 1) "tok" ≤ 1
    ∧ (statsOf (run (storeEmpty 1) twoTunnels) "tok").map (fun u => u.max_tunnels) = some 1
    ∧ activeCount (run (storeEmpty 1) twoTunnels) "tok" = 2 := by
  decide

/-! ## Instances on example data -/

/-- At store time 11 min the inactive row stamped 0 is deleted. -/
theorem C10_collector_cycle_witness :
    rowOf "a1" 30010 false ∉ (cleanupStaleTunnels storeAged (11 * minute) (11 * minute)).tunnels
    ∧ rowOf "a2" 30011 true ∈ (cleanupStaleTunnels storeAged (11 * minute) (11 * minute)).tunnels :=
  ⟨(C10_collector_cycle storeAged (11 * minute)).2.2.1 (rowOf "a1" 30010 false)
      (by decide) rfl (by decide),
   (C10_collector_cycle storeAged (11 * minute)).2.2.2.2.1 (rowOf "a2" 30011 true)
      (by decide) rfl (by decide)⟩

/-- The command `activate tok:30005` on the database with that tunnel is the typed
activation, and a second activation leaves the state of a single one. -/
theorem C6_activate_witness :
    activate storeFull "tok:30005" 7 = activateRow storeFull "tok" 30005 7
    ∧ (activateRow storeFull "tok" 30005 7).1 = ExitStatus.ok
    ∧ activateRow (activateRow storeFull "tok" 30005 7).2 "tok" 30005 9
        = activateRow storeFull "tok" 30005 9 :=
  ⟨(C6_activate storeFull "tok" 30005 7).2.2.2.2.2.2 "tok:30005" "30005" (by decide) (by decide),
   by decide,
   (C6_activate storeFull "tok" 30005 7).2.2.2.2.2.1 9⟩

/-- Samples 1 (reserved), 5 (taken) and 7 (free) give port 30007. -/
theorem C3_port_allocation_witness :
    30000 ≤ 30007 ∧ 30007 ≤ 59999 ∧
      (∃ r ∈ ([1, 5, 7] : List (Fin 30000)), 30007 = r.val + 30000) ∧
      (∀ t ∈ storeFull.tunnels, t.public_port ≠ 30007) ∧
      ({ alias_or_port := toString 30007, type := "port" } : Reservation) ∉ storeFull.reserved :=
  (C3_port_allocation storeFull).1 [1, 5, 7] 30007 (by decide)

/-- A `create` with a fresh requested alias keeps the aliases distinct. -/
theorem C4_alias_unique_witness :
    (storeFull.tunnels.map (fun t => t.alias_)).Nodup
    ∧ ((create storeFull "tok2:web" (envAt second [7])).2.tunnels.map (fun t => t.alias_)).Nodup
    ∧ (create storeFull "tok2:web" (envAt second [7])).2.tunnels.length = 2 :=
  ⟨by decide, C4_alias_unique storeFull "tok2:web" (envAt second [7]) (by decide), by decide⟩

/-- The command `create tok:admin` exits with status 1 on a database where `tok` is
neither rate limited nor at its cap. -/
theorem C5_reserved_alias_witness :
    (canCreateTunnel (storeEmpty 1) "tok" (envAt second [7])).1 = true
    ∧ ((create (storeEmpty 1) "tok:admin" (envAt second [7])).1 = CreateResult.exit1 ∧
        (create (storeEmpty 1) "tok:admin" (envAt second [7])).2.tunnels = (storeEmpty 1).tunnels) :=
  ⟨by decide,
   (C5_reserved_alias (storeEmpty 1) "tok:admin" (envAt second [7])).1 (by decide) (by decide)⟩

/-- The command `create tok:web` prints `web:30007:30007` and `get` answers as before. -/
theorem C8_create_postcondition_witness :
    (create (storeEmpty 1) "tok:web" (envAt second [7])).1 = CreateResult.printed "web" 30007 30007
    ∧ ∀ token, get (create (storeEmpty 1) "tok:web" (envAt second [7])).2 token
        = get (storeEmpty 1) token :=
  ⟨by decide,
   (C8_create_postcondition (storeEmpty 1) "tok:web" (envAt second [7]) "web" 30007 30007
      (by decide)).2.2.2.2.1⟩

end Openporter
